import Mathlib

/-!
Verification development for the NYT comments retrieval pipeline
(`streamlit_app.py`).

The file shallowly embeds the decision logic of the application:

* `get_article_id` — the three-pattern identifier extractor
  (`article/([a-f0-9-]+)`, `/(\d{4}/\d{2}/\d{2}/[^/]+)`, `(\d{5,})`),
  modelled with explicit leftmost-match regex searches over `List Char`;
* `get_comments_via_graphql` — parsing of the GraphQL response
  (`data -> communityComments -> edges -> node -> comment`), with the
  whole-function `except Exception` handler modelled by `Option` and a
  final `getD []`;
* `scrape_nyt_comments` — script-tag lookup, the
  `window.__preloadedData = ... ;` regex, the `json.loads` call (an
  external library, passed in as an oracle `jloads`), and the pandas
  `DataFrame` construction / column selection (`buildDf`);
* the module-level retrieval flow (`retrieve`), and an instrumented
  variant `retrieveTrace` recording which retrievers run;
* the sentiment enrichment step (`enrich`), with the external polarity
  function abstract.

Network effects are modelled by oracles: each `requests.get` result is a
parameter (`Option` of the parsed/fetched value, `none` standing for a
network error or an unparseable response body).

JSON values are modelled with integer numerics (`Int`); the claims under
verification only involve integer counts, strings, booleans and nulls.
Character classes `\d` and `\s` are modelled over ASCII, which is the
alphabet of every claim.
-/

namespace NYT

/-- Model of a parsed JSON value (the result of `response.json()` or
`json.loads`).  Pandas missing values (NaN) arising from absent keys are
represented by `Json.null`. -/
inductive Json where
  | null
  | bool (b : Bool)
  | num (n : Int)
  | str (s : String)
  | arr (items : List Json)
  | obj (fields : List (String × Json))
  deriving Repr

/-- Python `dict` lookup over the fields of a JSON object literal: later
duplicate keys overwrite earlier ones, as in `json.loads`. -/
def jGetKvs (kvs : List (String × Json)) (k : String) : Option Json :=
  kvs.foldl (fun acc p => if p.1 = k then some p.2 else acc) none

/-- Python `d[k]` on a parsed JSON value: `some` when `d` is an object
carrying key `k`, `none` when the access would raise (`KeyError` /
`TypeError`). -/
def jGet (j : Json) (k : String) : Option Json :=
  match j with
  | Json.obj kvs => jGetKvs kvs k
  | _ => none

/-- One row of the comment DataFrame produced by either retriever: the
five columns `commentBody`, `createDate`, `recommendations`,
`editorsSelection`, `userDisplayName`. -/
structure Row where
  commentBody : Json
  createDate : Json
  recommendations : Json
  editorsSelection : Json
  userDisplayName : Json
  deriving Repr

/-- A Python-style `for` loop accumulating results, where an exception at
any element aborts the whole computation (`none`). -/
def optMap (f : α → Option β) : List α → Option (List β)
  | [] => some []
  | a :: as =>
    match f a with
    | none => none
    | some b =>
      match optMap f as with
      | none => none
      | some bs => some (b :: bs)

/-! ### Identifier extractor (`get_article_id`) -/

/-- The character class `[a-f0-9-]` of the UUID pattern. -/
def isHexDash (c : Char) : Bool :=
  (Char.ofNat 97 ≤ c && c ≤ Char.ofNat 102) || c.isDigit || c = '-'

/-- Leftmost-match search: try the matcher at every start position, left
to right (the semantics of `re.search`). -/
def searchWith (m : List Char → Option (List Char)) : List Char → Option (List Char)
  | [] => m []
  | c :: rest =>
    match m (c :: rest) with
    | some r => some r
    | none => searchWith m rest

/-- The literal `article/` of the first pattern. -/
def articleSlash : List Char := "article/".data

/-- Match of `article/([a-f0-9-]+)` anchored at the head of the list:
the literal, then a nonempty greedy run of class characters (the
capture). -/
def matchPat1At (cs : List Char) : Option (List Char) :=
  if articleSlash.isPrefixOf cs then
    match cs.drop 8 with
    | [] => none
    | c :: rest => if isHexDash c then some ((c :: rest).takeWhile isHexDash) else none
  else none

/-- Exactly `n` decimal digits (`\d` over ASCII); returns the digits and
the remaining input.  Fixed-width, so no backtracking is involved. -/
def digitsN : Nat → List Char → Option (List Char × List Char)
  | 0, cs => some ([], cs)
  | _ + 1, [] => none
  | n + 1, c :: cs =>
    if c.isDigit then
      match digitsN n cs with
      | none => none
      | some (ds, r) => some (c :: ds, r)
    else none

/-- Match of `/(\d{4}/\d{2}/\d{2}/[^/]+)` anchored at the head: a slash,
then year/month/day groups, then a nonempty greedy run of non-slash
characters; the capture starts after the leading slash. -/
def matchPat2At (cs : List Char) : Option (List Char) :=
  match cs with
  | '/' :: r0 =>
    match digitsN 4 r0 with
    | some (y, '/' :: r1) =>
      match digitsN 2 r1 with
      | some (mo, '/' :: r2) =>
        match digitsN 2 r2 with
        | some (d, '/' :: r3) =>
          match r3 with
          | [] => none
          | c :: _ =>
            if c = '/' then none
            else some (y ++ '/' :: mo ++ '/' :: d ++ '/' :: r3.takeWhile (fun x => !(x = '/')))
        | _ => none
      | _ => none
    | _ => none
  | _ => none

/-- Match of `(\d{5,})` anchored at the head: five digits, then the
greedy continuation of the digit run. -/
def matchPat3At (cs : List Char) : Option (List Char) :=
  match cs with
  | c1 :: c2 :: c3 :: c4 :: c5 :: _ =>
    if c1.isDigit && c2.isDigit && c3.isDigit && c4.isDigit && c5.isDigit then
      some (cs.takeWhile Char.isDigit)
    else none
  | _ => none

/-- `re.search` of the first pattern over the whole URL. -/
def searchPat1 (cs : List Char) : Option (List Char) := searchWith matchPat1At cs

/-- `re.search` of the second pattern over the whole URL. -/
def searchPat2 (cs : List Char) : Option (List Char) := searchWith matchPat2At cs

/-- `re.search` of the third pattern over the whole URL. -/
def searchPat3 (cs : List Char) : Option (List Char) := searchWith matchPat3At cs

/-- `get_article_id`: try the three patterns in order, returning the
first capture; `None` when no pattern matches. -/
def get_article_id (url : String) : Option String :=
  match searchPat1 url.data with
  | some cap => some (String.mk cap)
  | none =>
    match searchPat2 url.data with
    | some cap => some (String.mk cap)
    | none =>
      match searchPat3 url.data with
      | some cap => some (String.mk cap)
      | none => none

/-! ### Structured retriever (`get_comments_via_graphql`) -/

/-- Parse one GraphQL edge: `edge['node']['comment']` and the five field
accesses; `none` models a raised `KeyError`/`TypeError` inside the loop. -/
def parseEdge (edge : Json) : Option Row := do
  let node ← jGet edge "node"
  let comment ← jGet node "comment"
  let text ← jGet comment "text"
  let accepted ← jGet comment "acceptedAt"
  let recCount ← jGet comment "recommendedCount"
  let pick ← jGet comment "timesPick"
  let author ← jGet comment "author"
  let name ← jGet author "name"
  some { commentBody := text, createDate := accepted, recommendations := recCount,
         editorsSelection := pick, userDisplayName := name }

/-- The body of `get_comments_via_graphql` after `response.json()`:
navigate `data -> communityComments -> edges` and parse every edge.
`none` models any exception reaching the handler. -/
def graphqlInner (data : Json) : Option (List Row) := do
  let d ← jGet data "data"
  let cc ← jGet d "communityComments"
  let edges ← jGet cc "edges"
  match edges with
  | Json.arr es => optMap parseEdge es
  | _ => none

/-- `get_comments_via_graphql`: the argument is the oracle result of the
HTTP call (`none` = network error or a body `response.json()` rejects);
the `except Exception` handler turns every failure into an empty
DataFrame. -/
def get_comments_via_graphql (resp : Option Json) : List Row :=
  match resp with
  | none => []
  | some j => (graphqlInner j).getD []

/-- The payload of one well-formed comment edge of the endpoint
response. -/
structure GRecord where
  text : String
  acceptedAt : String
  recommendedCount : Int
  timesPick : Bool
  authorName : String

/-- A well-formed edge of the endpoint response carrying the fields the
retriever reads. -/
def mkEdge (r : GRecord) : Json :=
  Json.obj [("node", Json.obj [("comment", Json.obj
    [("text", Json.str r.text),
     ("acceptedAt", Json.str r.acceptedAt),
     ("recommendedCount", Json.num r.recommendedCount),
     ("timesPick", Json.bool r.timesPick),
     ("author", Json.obj [("name", Json.str r.authorName)])])])]

/-- The DataFrame row the field mapping of the structured retriever
produces for one edge: text to body, acceptedAt to creation date,
recommendedCount to recommendations, timesPick to editor selection,
author name to display name. -/
def rowOfG (r : GRecord) : Row :=
  { commentBody := Json.str r.text
    createDate := Json.str r.acceptedAt
    recommendations := Json.num r.recommendedCount
    editorsSelection := Json.bool r.timesPick
    userDisplayName := Json.str r.authorName }

/-- An endpoint response wrapping the given edge list under
`data.communityComments.edges`. -/
def mkGraphqlResp (edges : List Json) : Json :=
  Json.obj [("data", Json.obj [("communityComments", Json.obj [("edges", Json.arr edges)])])]

/-! ### Scraping retriever (`scrape_nyt_comments`) -/

/-- A `<script>` element of the fetched page: its `id` attribute and its
text content (`script_tag.string`, which BeautifulSoup reports as `None`
for tags without a single text child). -/
structure Script where
  idAttr : Option String
  text : Option String

/-- The fetched article page, abstracted to its script elements in
document order. -/
structure Page where
  scripts : List Script

/-- `soup.find('script', id='js-article-comments')`: the first script
whose id attribute is the known identifier. -/
def findCommentsScript (p : Page) : Option Script :=
  p.scripts.find? (fun s => s.idAttr = some "js-article-comments")

/-- Python `\s` over ASCII: space, tab, newline, carriage return, form
feed, vertical tab. -/
def isPySpace (c : Char) : Bool :=
  c = ' ' || c = Char.ofNat 9 || c = Char.ofNat 10 || c = Char.ofNat 13 ||
    c = Char.ofNat 12 || c = Char.ofNat 11

/-- The literal `window.__preloadedData` of the scraping regex. -/
def preloadedLit : List Char := "window.__preloadedData".data

/-- Lazy part of `({.*?});` after the opening brace: the shortest run
(any characters, DOTALL) ending right before a closing brace immediately
followed by a semicolon; returns that run without the closing brace. -/
def findCloser : List Char → Option (List Char)
  | [] => none
  | [_] => none
  | c :: d :: rest =>
    if c = Char.ofNat 125 && d = ';' then some []
    else
      match findCloser (d :: rest) with
      | none => none
      | some mid => some (c :: mid)

/-- Match of `window\.__preloadedData\s*=\s*({.*?});` anchored at the
head: the literal, optional whitespace, `=`, optional whitespace, then
the captured brace group. -/
def matchPreloadedAt (cs : List Char) : Option (List Char) :=
  if preloadedLit.isPrefixOf cs then
    match (cs.drop 22).dropWhile isPySpace with
    | '=' :: r1 =>
      match r1.dropWhile isPySpace with
      | c :: r2 =>
        if c = Char.ofNat 123 then
          match findCloser r2 with
          | none => none
          | some mid => some (Char.ofNat 123 :: mid ++ [Char.ofNat 125])
        else none
      | [] => none
    | _ => none
  else none

/-- `re.search` of the preloaded-data regex over the script text. -/
def searchPreloaded (cs : List Char) : Option (List Char) := searchWith matchPreloadedAt cs

/-- The five column names selected at the end of the scraper
(`list(column_map.values())`; the rename map is the identity). -/
def requiredCols : List String :=
  ["commentBody", "createDate", "recommendations", "editorsSelection", "userDisplayName"]

/-- A comment dict viewed as a DataFrame row: each selected column takes
the dict's value, or null (NaN) when the key is absent. -/
def rowOfKvs (kvs : List (String × Json)) : Row :=
  { commentBody := (jGetKvs kvs "commentBody").getD Json.null
    createDate := (jGetKvs kvs "createDate").getD Json.null
    recommendations := (jGetKvs kvs "recommendations").getD Json.null
    editorsSelection := (jGetKvs kvs "editorsSelection").getD Json.null
    userDisplayName := (jGetKvs kvs "userDisplayName").getD Json.null }

/-- The element must be a JSON object for the row-wise `pd.DataFrame`
constructor; anything else raises. -/
def asObj : Json → Option (List (String × Json))
  | Json.obj kvs => some kvs
  | _ => none

/-- `pd.DataFrame(comments).rename(columns=column_map)[list(column_map.values())]`
for a row-oriented list of dicts: the frame's columns are the union of
the dict keys, values absent in a given row are NaN (`Json.null`), and
selecting a column absent from every row raises `KeyError` (`none`).
`none` models any exception from this step (it is caught by the
function-level handler). -/
def buildDf : Json → Option (List Row)
  | Json.arr items =>
    match optMap asObj items with
    | none => none
    | some objs =>
      if requiredCols.all (fun c => objs.any (fun kvs => (jGetKvs kvs c).isSome)) then
        some (objs.map rowOfKvs)
      else none
  | _ => none

/-- `scrape_nyt_comments`: the first argument is the external
`json.loads` (`none` = `JSONDecodeError`), the second the oracle result
of fetching the page (`none` = network error).  Every failure path —
early returns for a missing script tag, a failed regex or bad JSON, and
exceptions reaching the `except Exception` handler — yields an empty
DataFrame. -/
def scrape_nyt_comments (jloads : String → Option Json) (page : Option Page) : List Row :=
  match page with
  | none => []
  | some p =>
    match findCommentsScript p with
    | none => []
    | some tag =>
      match tag.text with
      | none => []
      | some txt =>
        match searchPreloaded txt.data with
        | none => []
        | some cap =>
          match jloads (String.mk cap) with
          | none => []
          | some data =>
            match data with
            | Json.obj kvs =>
              match buildDf ((jGetKvs kvs "comments").getD (Json.arr [])) with
              | none => []
              | some rows => rows
            | _ => []

/-! ### Retrieval orchestrator (module-level flow) -/

/-- The module-level retrieval flow: extract an identifier; when one is
obtained (a truthy string), try GraphQL and fall back to scraping on an
empty result; otherwise scrape directly.  `graphqlResp` and `pageOf` are
the network oracles. -/
def retrieve (graphqlResp : String → Option Json) (pageOf : String → Option Page)
    (jloads : String → Option Json) (url : String) : List Row :=
  match get_article_id url with
  | some id =>
    if id = "" then scrape_nyt_comments jloads (pageOf url)
    else
      let df := get_comments_via_graphql (graphqlResp id)
      if df.isEmpty then scrape_nyt_comments jloads (pageOf url) else df
  | none => scrape_nyt_comments jloads (pageOf url)

/-- An outbound retrieval call made by the flow. -/
inductive Ev where
  | gql (id : String)
  | scrape (url : String)
  deriving Repr, DecidableEq

/-- The retrieval flow instrumented with the sequence of retriever
invocations it performs, in order; its value component is the flow's
result. -/
def retrieveTrace (graphqlResp : String → Option Json) (pageOf : String → Option Page)
    (jloads : String → Option Json) (url : String) : List Ev × List Row :=
  match get_article_id url with
  | some id =>
    if id = "" then ([Ev.scrape url], scrape_nyt_comments jloads (pageOf url))
    else
      let df := get_comments_via_graphql (graphqlResp id)
      if df.isEmpty then
        ([Ev.gql id, Ev.scrape url], scrape_nyt_comments jloads (pageOf url))
      else ([Ev.gql id], df)
  | none => ([Ev.scrape url], scrape_nyt_comments jloads (pageOf url))

/-! ### Sentiment enricher -/

/-- `comments_df['sentiment'] = comments_df['commentBody'].apply(polarity)`:
pair every row with the polarity of its body; the external polarity
function (`TextBlob(...).sentiment.polarity`) is abstract. -/
def enrich {α : Type} (pol : Json → α) (rows : List Row) : List (Row × α) :=
  rows.map (fun r => (r, pol r.commentBody))

/-- Re-running the sentiment assignment on an already enriched frame:
the column is recomputed from `commentBody`, overwriting the previous
values. -/
def enrichAgain {α : Type} (pol : Json → α) (xs : List (Row × α)) : List (Row × α) :=
  xs.map (fun x => (x.1, pol x.1.commentBody))

/-! ### Identifier extractor, metadata strategy (Strategy B) -/

/-- Lowercase hexadecimal digit, the alphabet of a canonical UUID. -/
def isLowerHex (c : Char) : Bool :=
  c.isDigit || (Char.ofNat 97 ≤ c && c ≤ Char.ofNat 102)

/-- Canonical 36-character UUID shape: five lowercase-hex groups of
sizes 8-4-4-4-12 separated by dashes. -/
def uuidShape (cs : List Char) : Bool :=
  cs.length = 36 &&
    cs.enum.all (fun p =>
      if p.1 = 8 || p.1 = 13 || p.1 = 18 || p.1 = 23 then p.2 = '-' else isLowerHex p.2)

/-- Leftmost 36-character window of UUID shape inside a string, when
one exists. -/
def searchUuid : List Char → Option (List Char)
  | [] => none
  | c :: rest =>
    if uuidShape ((c :: rest).take 36) then some ((c :: rest).take 36)
    else searchUuid rest

/-- The UUID embedded in a URL, when the URL contains one. -/
def findUuid (s : String) : Option String :=
  (searchUuid s.data).map String.mk

/-- Modelled from the spec: a structured linked-data block of the
fetched page, reduced to the type tag and the canonical URL the
strategy reads.  The metadata-fetch strategy itself is absent from
`src/streamlit_app.py`; only the spec (§4.1, Strategy B) describes it. -/
structure LdEntry where
  typeName : String
  url : String

/-- Modelled from the spec: the metadata of the fetched article page —
its linked-data blocks and its optional social-sharing URL meta tag. -/
structure MetaPage where
  ld : List LdEntry
  socialUrl : Option String

/-- Modelled from the spec: Strategy B of the identifier extractor.
Fetch the page (`none` = fetch failure); look for a `NewsArticle`-typed
linked-data entry whose canonical URL contains a UUID; fall back to the
social-sharing URL meta tag with the same UUID pattern; absent when
neither yields a match or the fetch fails. -/
def strategyB (fetched : Option MetaPage) : Option String :=
  match fetched with
  | none => none
  | some p =>
    match p.ld.find? (fun e => e.typeName = "NewsArticle" && (findUuid e.url).isSome) with
    | some e => findUuid e.url
    | none =>
      match p.socialUrl with
      | some u => findUuid u
      | none => none

/-- Modelled from the spec: an extractor combining the pattern strategy
with the metadata strategy, pattern first (§4.1 leaves the order to the
caller; §8 only constrains the case where both fail). -/
def extractWithFallback (url : String) (fetched : Option MetaPage) : Option String :=
  match get_article_id url with
  | some id => some id
  | none => strategyB fetched

/-! ### Helper lemmas: leftmost regex search -/

lemma takeWhile_append_of_all (p : Char → Bool) (id post : List Char)
    (h1 : ∀ c ∈ id, p c = true) (h2 : ∀ c ∈ post.take 1, p c = false) :
    (id ++ post).takeWhile p = id := by
  induction id with
  | nil =>
    cases post with
    | nil => rfl
    | cons c cs =>
      have hc := h2 c (by simp)
      simp [List.takeWhile_cons, hc]
  | cons c cs ih =>
    have hc := h1 c (by simp)
    simp only [List.cons_append, List.takeWhile_cons, hc, if_true, List.cons.injEq, true_and]
    exact ih (fun x hx => h1 x (by simp [hx]))

lemma isPrefixOf_append_self (l₁ l₂ : List Char) : l₁.isPrefixOf (l₁ ++ l₂) = true := by
  induction l₁ with
  | nil => simp [List.isPrefixOf]
  | cons c cs ih => simp [List.isPrefixOf, ih]

lemma matchPat1At_anchor (id post : List Char) (hid : id ≠ [])
    (hidc : ∀ c ∈ id, isHexDash c = true)
    (hpost : ∀ c ∈ post.take 1, isHexDash c = false) :
    matchPat1At (articleSlash ++ (id ++ post)) = some id := by
  cases id with
  | nil => exact absurd rfl hid
  | cons c cs =>
    have hpref : articleSlash.isPrefixOf (articleSlash ++ (c :: cs ++ post)) = true :=
      isPrefixOf_append_self _ _
    have hdrop : (articleSlash ++ (c :: cs ++ post)).drop 8 = c :: cs ++ post := by
      have h8 : articleSlash.length = 8 := rfl
      rw [← h8, List.drop_left]
    have hc := hidc c (by simp)
    unfold matchPat1At
    rw [hpref, if_pos rfl, hdrop]
    show (if isHexDash c = true then
        some (List.takeWhile isHexDash (c :: (cs ++ post))) else none) = some (c :: cs)
    rw [hc, if_pos rfl]
    have htw : List.takeWhile isHexDash (c :: (cs ++ post)) = c :: cs := by
      simpa using takeWhile_append_of_all isHexDash (c :: cs) post hidc hpost
    rw [htw]

lemma searchWith_append (m : List Char → Option (List Char)) (pre rest : List Char)
    (h : ∀ q, q < pre.length → m (pre.drop q ++ rest) = none) :
    searchWith m (pre ++ rest) = searchWith m rest := by
  induction pre with
  | nil => rfl
  | cons c cs ih =>
    have h0 : m (c :: (cs ++ rest)) = none := by simpa using h 0 (by simp)
    have hrec : searchWith m (cs ++ rest) = searchWith m rest :=
      ih (fun q hq => by simpa using h (q + 1) (by simpa using Nat.succ_lt_succ hq))
    calc searchWith m ((c :: cs) ++ rest) = searchWith m (cs ++ rest) := by
          simp [searchWith, h0]
      _ = searchWith m rest := hrec

lemma searchWith_head (m : List Char → Option (List Char)) (cs r : List Char)
    (h : m cs = some r) : searchWith m cs = some r := by
  cases cs with
  | nil => simpa [searchWith] using h
  | cons c rest => simp [searchWith, h]

/-- The identifier extractor on a URL that embeds `article/` followed by
a nonempty class run, provided no earlier position matches the first
pattern and the run is delimited on the right. -/
lemma get_article_id_embed (pre id post : List Char)
    (hpre : ∀ q, q < pre.length → matchPat1At (pre.drop q ++ (articleSlash ++ (id ++ post))) = none)
    (hid : id ≠ [])
    (hidc : ∀ c ∈ id, isHexDash c = true)
    (hpost : ∀ c ∈ post.take 1, isHexDash c = false) :
    get_article_id (String.mk (pre ++ (articleSlash ++ (id ++ post)))) = some (String.mk id) := by
  have hs : searchPat1 (pre ++ (articleSlash ++ (id ++ post))) = some id := by
    unfold searchPat1
    rw [searchWith_append matchPat1At pre _ hpre]
    exact searchWith_head _ _ _ (matchPat1At_anchor id post hid hidc hpost)
  simp [get_article_id, hs]

lemma matchPat1At_head_ne (x : Char) (l : List Char) (hx : x ≠ 'a') :
    matchPat1At (x :: l) = none := by
  have hpref : articleSlash.isPrefixOf (x :: l) = false := by
    have : articleSlash = 'a' :: "rticle/".data := rfl
    rw [this]
    simp [List.isPrefixOf]
    intro h
    exact absurd h.symm hx
  simp [matchPat1At, hpref]

/-! ### Claim C5 -/

/-- C5: `get_article_id` tries the three patterns in order — UUID-shaped
segment after `article/`, then date/slug, then a digit run of length at
least five — the first match winning with no further pattern tried, and
no match at all yielding `none`; and on a URL embedding `article/`
followed by a delimited UUID whose position is the leftmost match of the
first pattern, it returns exactly the embedded UUID substring. -/
theorem extractor_pattern_order_uuid :
    (∀ url cap, searchPat1 url.data = some cap →
      get_article_id url = some (String.mk cap)) ∧
    (∀ url cap, searchPat1 url.data = none → searchPat2 url.data = some cap →
      get_article_id url = some (String.mk cap)) ∧
    (∀ url cap, searchPat1 url.data = none → searchPat2 url.data = none →
      searchPat3 url.data = some cap → get_article_id url = some (String.mk cap)) ∧
    (∀ url, searchPat1 url.data = none → searchPat2 url.data = none →
      searchPat3 url.data = none → get_article_id url = none) ∧
    (∀ pre id post,
      (∀ q, q < pre.length →
        matchPat1At (pre.drop q ++ (articleSlash ++ (id ++ post))) = none) →
      id ≠ [] →
      (∀ c ∈ id, isHexDash c = true) →
      (∀ c ∈ post.take 1, isHexDash c = false) →
      get_article_id (String.mk (pre ++ (articleSlash ++ (id ++ post)))) = some (String.mk id)) := by
  refine ⟨?_, ?_, ?_, ?_, ?_⟩
  · intro url cap h; simp [get_article_id, h]
  · intro url cap h1 h2; simp [get_article_id, h1, h2]
  · intro url cap h1 h2 h3; simp [get_article_id, h1, h2, h3]
  · intro url h1 h2 h3; simp [get_article_id, h1, h2, h3]
  · exact get_article_id_embed

/-- C5 witness: the spec's example URL yields exactly its embedded
UUID. -/
theorem extractor_pattern_order_uuid_witness :
    get_article_id "https://www.nytimes.com/article/123e4567-e89b-12d3-a456-426614174000" =
      some "123e4567-e89b-12d3-a456-426614174000" := by
  have h := extractor_pattern_order_uuid.2.2.2.2 "https://www.nytimes.com/".data
    "123e4567-e89b-12d3-a456-426614174000".data []
    (by decide) (by decide) (by decide) (by decide)
  exact h

/-! ### Claim C10 -/

/-- C10: the first pattern accepts any nonempty run of characters from
`[a-f0-9-]` after `article/`, not only canonical UUIDs; in particular a
URL containing `article/abc` yields the identifier `abc`. -/
theorem pattern1_accepts_hexdash_runs :
    (∀ pre id post, 'a' ∉ pre → id ≠ [] →
      (∀ c ∈ id, isHexDash c = true) →
      (∀ c ∈ post.take 1, isHexDash c = false) →
      get_article_id (String.mk (pre ++ (articleSlash ++ (id ++ post)))) = some (String.mk id)) ∧
    get_article_id "https://www.nytimes.com/article/abc" = some "abc" := by
  constructor
  · intro pre id post ha hid hidc hpost
    refine get_article_id_embed pre id post ?_ hid hidc hpost
    intro q hq
    cases hd : pre.drop q with
    | nil =>
      have : pre.length ≤ q := by
        have := List.drop_eq_nil_iff.mp hd
        simpa using this
      omega
    | cons x xs =>
      have hxmem : x ∈ pre := by
        have hsub := List.drop_subset q pre
        rw [hd] at hsub
        exact hsub (by simp)
      have hx : x ≠ 'a' := fun h => ha (h ▸ hxmem)
      simpa using matchPat1At_head_ne x (xs ++ (articleSlash ++ (id ++ post))) hx
  · rfl

/-- C10 witness: instance of the general statement at a concrete URL. -/
theorem pattern1_accepts_hexdash_runs_witness :
    get_article_id (String.mk ("https://x.io/".data ++ (articleSlash ++ ("abc-1".data ++ "?q=1".data)))) =
      some "abc-1" := by
  exact pattern1_accepts_hexdash_runs.1 "https://x.io/".data "abc-1".data "?q=1".data
    (by decide) (by decide) (by decide) (by decide)

/-! ### Helper lemmas: captures of the three patterns are nonempty
(so the module-level truthiness test `if article_id:` never sees a falsy
nonempty result). -/

lemma matchPat1At_ne_nil (cs r : List Char) (h : matchPat1At cs = some r) : r ≠ [] := by
  unfold matchPat1At at h
  split at h
  · split at h
    · exact absurd h (by simp)
    · split at h
      · intro hnil
        rw [hnil] at h
        have := Option.some.inj h
        rw [List.takeWhile_cons] at this
        simp_all
      · exact absurd h (by simp)
  · exact absurd h (by simp)

lemma matchPat2At_ne_nil (cs r : List Char) (h : matchPat2At cs = some r) : r ≠ [] := by
  unfold matchPat2At at h
  repeat' split at h
  all_goals try simp_all
  all_goals (subst h; simp)

lemma matchPat3At_ne_nil (cs r : List Char) (h : matchPat3At cs = some r) : r ≠ [] := by
  unfold matchPat3At at h
  split at h
  · split at h
    · intro hnil
      rw [hnil] at h
      have := Option.some.inj h
      rw [List.takeWhile_cons] at this
      simp_all
    · exact absurd h (by simp)
  · exact absurd h (by simp)

lemma searchWith_ne_nil (m : List Char → Option (List Char))
    (hm : ∀ cs r, m cs = some r → r ≠ []) (cs r : List Char)
    (h : searchWith m cs = some r) : r ≠ [] := by
  induction cs with
  | nil => exact hm [] r (by simpa [searchWith] using h)
  | cons c rest ih =>
    simp only [searchWith] at h
    split at h
    · next r₂ heq => exact (Option.some.inj h) ▸ hm _ r₂ heq
    · exact ih h

lemma get_article_id_ne_empty (url : String) (id : String)
    (h : get_article_id url = some id) : id ≠ "" := by
  have key : ∀ cap : List Char, cap ≠ [] → String.mk cap ≠ "" := by
    intro cap hcap heq
    exact hcap (congrArg String.data heq)
  unfold get_article_id at h
  split at h
  · next cap heq =>
    exact (Option.some.inj h) ▸
      key cap (searchWith_ne_nil matchPat1At matchPat1At_ne_nil url.data cap heq)
  · split at h
    · next cap heq =>
      exact (Option.some.inj h) ▸
        key cap (searchWith_ne_nil matchPat2At matchPat2At_ne_nil url.data cap heq)
    · split at h
      · next cap heq =>
        exact (Option.some.inj h) ▸
          key cap (searchWith_ne_nil matchPat3At matchPat3At_ne_nil url.data cap heq)
      · exact absurd h (by simp)

/-! ### Claim C1 -/

/-- C1: the retrieval flow is a two-level fallback chain — with an
extracted identifier it calls the structured retriever, falling back to
scraping on an empty result, and with no identifier it scrapes directly;
whenever the structured retriever returns an empty collection for the
extracted identifier, the final result equals exactly the scraping
retriever's result for the URL. -/
theorem orchestrator_fallback_chain (graphqlResp : String → Option Json)
    (pageOf : String → Option Page) (jloads : String → Option Json) (url : String) :
    (get_article_id url = none →
      retrieve graphqlResp pageOf jloads url = scrape_nyt_comments jloads (pageOf url)) ∧
    (∀ id, get_article_id url = some id →
      get_comments_via_graphql (graphqlResp id) = [] →
      retrieve graphqlResp pageOf jloads url = scrape_nyt_comments jloads (pageOf url)) ∧
    (∀ id, get_article_id url = some id →
      get_comments_via_graphql (graphqlResp id) ≠ [] →
      retrieve graphqlResp pageOf jloads url = get_comments_via_graphql (graphqlResp id)) := by
  refine ⟨?_, ?_, ?_⟩
  · intro h
    simp [retrieve, h]
  · intro id hid hempty
    have hne := get_article_id_ne_empty url id hid
    simp [retrieve, hid, hne, hempty]
  · intro id hid hne2
    have hne := get_article_id_ne_empty url id hid
    have hfalse : (get_comments_via_graphql (graphqlResp id)).isEmpty = false := by
      cases hg : get_comments_via_graphql (graphqlResp id) with
      | nil => exact absurd hg hne2
      | cons a t => rfl
    simp [retrieve, hid, hne, hfalse]

/-- C1 witness: with an identifier extracted and the structured
retriever empty (network oracle `none`), the flow's result is the
scraper's result for the URL. -/
theorem orchestrator_fallback_chain_witness :
    retrieve (fun _ => none) (fun _ => none) (fun _ => none)
        "https://www.nytimes.com/article/abc" =
      scrape_nyt_comments (fun _ => none) none := by
  exact (orchestrator_fallback_chain (fun _ => none) (fun _ => none) (fun _ => none)
    "https://www.nytimes.com/article/abc").2.1 "abc" rfl rfl

/-! ### Claim C9 -/

/-- Recognizer for structured-retriever invocations in a trace. -/
def Ev.isGql : Ev → Bool
  | Ev.gql _ => true
  | _ => false

/-- Recognizer for scraping-retriever invocations in a trace. -/
def Ev.isScrape : Ev → Bool
  | Ev.scrape _ => true
  | _ => false

/-- C9: in every invocation of the retrieval flow each retriever runs at
most once; the structured retriever is never invoked when no identifier
was extracted, and the scraper is never invoked when the structured
retriever returned a non-empty collection; the instrumented flow
computes the same result as the plain flow. -/
theorem retrievers_run_at_most_once (graphqlResp : String → Option Json)
    (pageOf : String → Option Page) (jloads : String → Option Json) (url : String) :
    ((retrieveTrace graphqlResp pageOf jloads url).1.filter Ev.isGql).length ≤ 1 ∧
    ((retrieveTrace graphqlResp pageOf jloads url).1.filter Ev.isScrape).length ≤ 1 ∧
    (get_article_id url = none →
      ∀ id, Ev.gql id ∉ (retrieveTrace graphqlResp pageOf jloads url).1) ∧
    (∀ id, get_article_id url = some id →
      get_comments_via_graphql (graphqlResp id) ≠ [] →
      ∀ u, Ev.scrape u ∉ (retrieveTrace graphqlResp pageOf jloads url).1) ∧
    (retrieveTrace graphqlResp pageOf jloads url).2 =
      retrieve graphqlResp pageOf jloads url := by
  unfold retrieveTrace retrieve
  cases hA : get_article_id url with
  | none => simp [Ev.isGql, Ev.isScrape]
  | some id =>
    by_cases hid : id = ""
    · exact absurd hid (get_article_id_ne_empty url id hA)
    · by_cases hdf : (get_comments_via_graphql (graphqlResp id)).isEmpty
      · have hdf2 : get_comments_via_graphql (graphqlResp id) = [] := by
          cases hg : get_comments_via_graphql (graphqlResp id) with
          | nil => rfl
          | cons a t => rw [hg] at hdf; exact absurd hdf (by simp)
        simp [hid, hdf, hdf2, Ev.isGql, Ev.isScrape]
      · simp [hid, hdf, Ev.isGql, Ev.isScrape]

/-- C9 witness: with no extractable identifier, no structured-retriever
call appears in the trace. -/
theorem retrievers_run_at_most_once_witness :
    Ev.gql "abc" ∉
      (retrieveTrace (fun _ => none) (fun _ => none) (fun _ => none)
        "https://www.nytimes.com/").1 := by
  exact (retrievers_run_at_most_once (fun _ => none) (fun _ => none) (fun _ => none)
    "https://www.nytimes.com/").2.2.1 rfl "abc"

/-! ### Claim C2 -/

lemma parseEdge_mkEdge (r : GRecord) : parseEdge (mkEdge r) = some (rowOfG r) := rfl

lemma optMap_parseEdge (rs : List GRecord) :
    optMap parseEdge (rs.map mkEdge) = some (rs.map rowOfG) := by
  induction rs with
  | nil => rfl
  | cons a t ih => simp only [List.map_cons, optMap, parseEdge_mkEdge, ih]

/-- C2: on an endpoint response whose `data.communityComments.edges`
list holds N comment edges, the structured retriever returns exactly N
rows, mapping text to body, acceptedAt to the creation date,
recommendedCount to recommendations, timesPick to editor selection, and
the author name to the display name (see `rowOfG`). -/
theorem graphql_maps_edges (rs : List GRecord) :
    get_comments_via_graphql (some (mkGraphqlResp (rs.map mkEdge))) = rs.map rowOfG ∧
    (get_comments_via_graphql (some (mkGraphqlResp (rs.map mkEdge)))).length = rs.length := by
  have h : get_comments_via_graphql (some (mkGraphqlResp (rs.map mkEdge))) = rs.map rowOfG := by
    simp [get_comments_via_graphql, graphqlInner, mkGraphqlResp, jGet, jGetKvs, optMap_parseEdge]
  exact ⟨h, by rw [h]; simp⟩

/-! ### Claim C3 -/

/-- C3: every retrieval failure is contained in the retriever that hit
it — a failed network call, a body the JSON parser rejects, missing keys
or an unexpected shape in the structured response, a missing script tag,
a missing text node, a failed regex, a `json.loads` failure, a non-dict
payload, and a failed DataFrame construction all yield an empty
collection instead of an exception escaping the retriever. -/
theorem retriever_failures_contained :
    (get_comments_via_graphql none = []) ∧
    (∀ j, graphqlInner j = none → get_comments_via_graphql (some j) = []) ∧
    (∀ jloads, scrape_nyt_comments jloads none = []) ∧
    (∀ jloads p, findCommentsScript p = none → scrape_nyt_comments jloads (some p) = []) ∧
    (∀ jloads p tag, findCommentsScript p = some tag → tag.text = none →
      scrape_nyt_comments jloads (some p) = []) ∧
    (∀ jloads p tag txt, findCommentsScript p = some tag → tag.text = some txt →
      searchPreloaded txt.data = none → scrape_nyt_comments jloads (some p) = []) ∧
    (∀ jloads p tag txt cap, findCommentsScript p = some tag → tag.text = some txt →
      searchPreloaded txt.data = some cap → jloads (String.mk cap) = none →
      scrape_nyt_comments jloads (some p) = []) ∧
    (∀ jloads p tag txt cap data, findCommentsScript p = some tag → tag.text = some txt →
      searchPreloaded txt.data = some cap → jloads (String.mk cap) = some data →
      asObj data = none → scrape_nyt_comments jloads (some p) = []) ∧
    (∀ jloads p tag txt cap kvs, findCommentsScript p = some tag → tag.text = some txt →
      searchPreloaded txt.data = some cap → jloads (String.mk cap) = some (Json.obj kvs) →
      buildDf ((jGetKvs kvs "comments").getD (Json.arr [])) = none →
      scrape_nyt_comments jloads (some p) = []) := by
  refine ⟨rfl, ?_, ?_, ?_, ?_, ?_, ?_, ?_, ?_⟩
  · intro j h; simp [get_comments_via_graphql, h]
  · intro jloads; rfl
  · intro jloads p h; simp [scrape_nyt_comments, h]
  · intro jloads p tag h1 h2; simp [scrape_nyt_comments, h1, h2]
  · intro jloads p tag txt h1 h2 h3; simp [scrape_nyt_comments, h1, h2, h3]
  · intro jloads p tag txt cap h1 h2 h3 h4; simp [scrape_nyt_comments, h1, h2, h3, h4]
  · intro jloads p tag txt cap data h1 h2 h3 h4 h5
    cases data <;> simp_all [scrape_nyt_comments, asObj]
  · intro jloads p tag txt cap kvs h1 h2 h3 h4 h5
    simp [scrape_nyt_comments, h1, h2, h3, h4, h5]

/-- C3 witness: a fetched page with no scripts at all yields an empty
collection from the scraper, and a failed network call yields an empty
collection from the structured retriever. -/
theorem retriever_failures_contained_witness :
    scrape_nyt_comments (fun _ => none) (some { scripts := [] }) = [] ∧
    get_comments_via_graphql none = [] := by
  exact ⟨retriever_failures_contained.2.2.2.1 (fun _ => none) { scripts := [] } rfl,
    retriever_failures_contained.1⟩

/-! ### Helper lemmas: the DataFrame step of the scraper -/

lemma optMap_asObj_map (objs : List (List (String × Json))) :
    optMap asObj (objs.map Json.obj) = some objs := by
  induction objs with
  | nil => rfl
  | cons a t ih => simp [optMap, asObj, ih]

lemma buildDf_map_obj (objs : List (List (String × Json))) :
    buildDf (Json.arr (objs.map Json.obj)) =
      if requiredCols.all (fun c => objs.any (fun kvs => (jGetKvs kvs c).isSome)) then
        some (objs.map rowOfKvs)
      else none := by
  simp [buildDf, optMap_asObj_map]

lemma scrape_success_chain (jloads : String → Option Json) (p : Page) (tag : Script)
    (txt : String) (cap : List Char) (kvs : List (String × Json))
    (h1 : findCommentsScript p = some tag) (h2 : tag.text = some txt)
    (h3 : searchPreloaded txt.data = some cap)
    (h4 : jloads (String.mk cap) = some (Json.obj kvs)) :
    scrape_nyt_comments jloads (some p) =
      (buildDf ((jGetKvs kvs "comments").getD (Json.arr []))).getD [] := by
  simp only [scrape_nyt_comments, h1, h2, h3, h4]
  cases hb : buildDf ((jGetKvs kvs "comments").getD (Json.arr [])) <;> simp [hb]

/-! ### Claim C4 -/

/-- The `json.loads` oracle for the counterexample page: the capture of
the regex parses to an object whose `comments` array holds one comment
object with no fields at all. -/
def jlC4 : String → Option Json :=
  fun _ => some (Json.obj [("comments", Json.arr [Json.obj []])])

/-- A page whose comments script embeds preloaded JSON with a
one-element `comments` array whose element carries none of the expected
fields. -/
def pageC4 : Page :=
  { scripts := [{ idAttr := some "js-article-comments",
                  text := some "window.__preloadedData = \x7b\x22comments\x22: [\x7b\x7d]\x7d;" }] }

/-- C4 counterexample: a page whose embedded JSON holds a `comments`
array of length 1 on which the scraper returns an empty collection, not
a collection of length 1 — selecting the expected columns raises for
comments that carry none of them, and the handler returns an empty
DataFrame. -/
theorem scraper_length_claim_counterexample :
    jlC4 "\x7b\x22comments\x22: [\x7b\x7d]\x7d" =
      some (Json.obj [("comments", Json.arr [Json.obj []])]) ∧
    scrape_nyt_comments jlC4 (some pageC4) = [] ∧
    (scrape_nyt_comments jlC4 (some pageC4)).length ≠ [Json.obj []].length := by
  refine ⟨rfl, rfl, ?_⟩
  have h : scrape_nyt_comments jlC4 (some pageC4) = [] := rfl
  simp [h]

/-- C4 amended: given HTML whose `js-article-comments` script embeds
`window.__preloadedData = ... ;` JSON holding a `comments` array of M
objects that each carry the five expected fields, the scraper returns a
collection of length M; with the script absent, the regex unmatched, or
the JSON unparseable it returns an empty collection. -/
theorem scraper_counts_amended :
    (∀ jloads p, findCommentsScript p = none → scrape_nyt_comments jloads (some p) = []) ∧
    (∀ jloads p tag txt, findCommentsScript p = some tag → tag.text = some txt →
      searchPreloaded txt.data = none → scrape_nyt_comments jloads (some p) = []) ∧
    (∀ jloads p tag txt cap, findCommentsScript p = some tag → tag.text = some txt →
      searchPreloaded txt.data = some cap → jloads (String.mk cap) = none →
      scrape_nyt_comments jloads (some p) = []) ∧
    (∀ jloads p tag txt cap kvs (objs : List (List (String × Json))),
      findCommentsScript p = some tag → tag.text = some txt →
      searchPreloaded txt.data = some cap → jloads (String.mk cap) = some (Json.obj kvs) →
      jGetKvs kvs "comments" = some (Json.arr (objs.map Json.obj)) →
      (∀ kv ∈ objs, requiredCols.all (fun c => (jGetKvs kv c).isSome) = true) →
      (scrape_nyt_comments jloads (some p)).length = objs.length) := by
  refine ⟨?_, ?_, ?_, ?_⟩
  · intro jloads p h; simp [scrape_nyt_comments, h]
  · intro jloads p tag txt h1 h2 h3; simp [scrape_nyt_comments, h1, h2, h3]
  · intro jloads p tag txt cap h1 h2 h3 h4; simp [scrape_nyt_comments, h1, h2, h3, h4]
  · intro jloads p tag txt cap kvs objs h1 h2 h3 h4 h5 hall
    rw [scrape_success_chain jloads p tag txt cap kvs h1 h2 h3 h4, h5]
    simp only [Option.getD_some]
    rw [buildDf_map_obj]
    cases objs with
    | nil => simp [requiredCols]
    | cons kv t =>
      have hcond : requiredCols.all
          (fun c => (kv :: t).any (fun kvs2 => (jGetKvs kvs2 c).isSome)) = true := by
        rw [List.all_eq_true]
        intro c hc
        have hkv := hall kv (by simp)
        rw [List.all_eq_true] at hkv
        simp [List.any_cons, hkv c hc]
      rw [if_pos hcond]
      simp

/-- C4 amended witness: one fully populated comment yields a collection
of length one. -/
theorem scraper_counts_amended_witness :
    (scrape_nyt_comments
      (fun _ => some (Json.obj [("comments", Json.arr [Json.obj
        [("commentBody", Json.str "b"), ("createDate", Json.str "d"),
         ("recommendations", Json.num 3), ("editorsSelection", Json.bool false),
         ("userDisplayName", Json.str "u")]])]))
      (some { scripts := [{ idAttr := some "js-article-comments",
                            text := some "window.__preloadedData = \x7b\x7d;" }] })).length = 1 := by
  exact scraper_counts_amended.2.2.2
    (fun _ => some (Json.obj [("comments", Json.arr [Json.obj
      [("commentBody", Json.str "b"), ("createDate", Json.str "d"),
       ("recommendations", Json.num 3), ("editorsSelection", Json.bool false),
       ("userDisplayName", Json.str "u")]])]))
    { scripts := [{ idAttr := some "js-article-comments",
                    text := some "window.__preloadedData = \x7b\x7d;" }] }
    { idAttr := some "js-article-comments", text := some "window.__preloadedData = \x7b\x7d;" }
    "window.__preloadedData = \x7b\x7d;" "\x7b\x7d".data
    [("comments", Json.arr [Json.obj
      [("commentBody", Json.str "b"), ("createDate", Json.str "d"),
       ("recommendations", Json.num 3), ("editorsSelection", Json.bool false),
       ("userDisplayName", Json.str "u")]])]
    [[("commentBody", Json.str "b"), ("createDate", Json.str "d"),
      ("recommendations", Json.num 3), ("editorsSelection", Json.bool false),
      ("userDisplayName", Json.str "u")]]
    rfl rfl rfl rfl rfl (by decide)

/-! ### Claim C7 -/

/-- A scraped comment carrying all five expected fields. -/
def cFullKvs : List (String × Json) :=
  [("commentBody", Json.str "good point"), ("createDate", Json.str "2024-01-01"),
   ("recommendations", Json.num 3), ("editorsSelection", Json.bool false),
   ("userDisplayName", Json.str "alice")]

/-- A scraped comment missing the `recommendations` field. -/
def cNoRecKvs : List (String × Json) :=
  [("commentBody", Json.str "second"), ("createDate", Json.str "2024-01-02"),
   ("editorsSelection", Json.bool true), ("userDisplayName", Json.str "bob")]

/-- The `json.loads` oracle for the partial-fields page: a two-element
`comments` array whose second element lacks `recommendations`. -/
def jlC7 : String → Option Json :=
  fun _ => some (Json.obj [("comments", Json.arr [Json.obj cFullKvs, Json.obj cNoRecKvs])])

/-- A page whose comments script embeds a minimal preloaded-data
assignment. -/
def pageC7 : Page :=
  { scripts := [{ idAttr := some "js-article-comments",
                  text := some "window.__preloadedData = \x7b\x7d;" }] }

/-- C7 counterexample: a comment whose `recommendations` field is absent
upstream is kept, but its recommendation count comes out as null (NaN),
not as 0 — the code never defaults the field to 0, contradicting the
claimed invariant. -/
theorem partial_fields_counterexample :
    (scrape_nyt_comments jlC7 (some pageC7)).map Row.recommendations =
      [Json.num 3, Json.null] ∧
    Json.null ≠ Json.num 0 ∧
    (scrape_nyt_comments jlC7 (some pageC7)).length = 2 :=
  ⟨rfl, fun h => Json.noConfusion h, rfl⟩

/-- C7 amended: when each expected column occurs in at least one scraped
comment, comments missing some fields are kept with those fields null
(NaN), per `rowOfKvs` — no field is defaulted to 0 and body, author and
date may be null; when an expected column is absent from every comment,
the column selection fails and the scraper returns an empty collection
instead of keeping the comments. -/
theorem partial_fields_amended :
    (∀ jloads p tag txt cap kvs (objs : List (List (String × Json))),
      findCommentsScript p = some tag → tag.text = some txt →
      searchPreloaded txt.data = some cap → jloads (String.mk cap) = some (Json.obj kvs) →
      jGetKvs kvs "comments" = some (Json.arr (objs.map Json.obj)) →
      requiredCols.all (fun c => objs.any (fun kv => (jGetKvs kv c).isSome)) = true →
      scrape_nyt_comments jloads (some p) = objs.map rowOfKvs) ∧
    (∀ jloads p tag txt cap kvs (objs : List (List (String × Json))),
      findCommentsScript p = some tag → tag.text = some txt →
      searchPreloaded txt.data = some cap → jloads (String.mk cap) = some (Json.obj kvs) →
      jGetKvs kvs "comments" = some (Json.arr (objs.map Json.obj)) →
      requiredCols.all (fun c => objs.any (fun kv => (jGetKvs kv c).isSome)) = false →
      scrape_nyt_comments jloads (some p) = []) := by
  constructor
  · intro jloads p tag txt cap kvs objs h1 h2 h3 h4 h5 hcond
    rw [scrape_success_chain jloads p tag txt cap kvs h1 h2 h3 h4, h5]
    simp only [Option.getD_some]
    rw [buildDf_map_obj, if_pos hcond]
    rfl
  · intro jloads p tag txt cap kvs objs h1 h2 h3 h4 h5 hcond
    rw [scrape_success_chain jloads p tag txt cap kvs h1 h2 h3 h4, h5]
    simp only [Option.getD_some]
    rw [buildDf_map_obj, if_neg]
    · rfl
    · simp [hcond]

/-- C7 amended witness: on the two-comment page, both comments are kept
and normalized by `rowOfKvs` (missing recommendation count null). -/
theorem partial_fields_amended_witness :
    scrape_nyt_comments jlC7 (some pageC7) = [cFullKvs, cNoRecKvs].map rowOfKvs := by
  exact partial_fields_amended.1 jlC7 pageC7
    { idAttr := some "js-article-comments", text := some "window.__preloadedData = \x7b\x7d;" }
    "window.__preloadedData = \x7b\x7d;" "\x7b\x7d".data
    [("comments", Json.arr [Json.obj cFullKvs, Json.obj cNoRecKvs])]
    [cFullKvs, cNoRecKvs] rfl rfl rfl rfl rfl (by decide)

/-! ### Claim C6 -/

/-- C6: the metadata strategy of the identifier extractor — absent on a
fetch failure; with a matching `NewsArticle` linked-data entry it
returns that entry's embedded UUID; with none it falls back to the
social-sharing meta tag; with neither it is absent; and a URL with no
recognizable pattern plus unreachable metadata extracts nothing. -/
theorem strategyB_metadata_behavior :
    strategyB none = none ∧
    (∀ p e, p.ld.find? (fun e2 =>
        e2.typeName = "NewsArticle" && (findUuid e2.url).isSome) = some e →
      strategyB (some p) = findUuid e.url) ∧
    (∀ p u, p.ld.find? (fun e2 =>
        e2.typeName = "NewsArticle" && (findUuid e2.url).isSome) = none →
      p.socialUrl = some u → strategyB (some p) = findUuid u) ∧
    (∀ p, p.ld.find? (fun e2 =>
        e2.typeName = "NewsArticle" && (findUuid e2.url).isSome) = none →
      p.socialUrl = none → strategyB (some p) = none) ∧
    (∀ url, get_article_id url = none → extractWithFallback url none = none) := by
  refine ⟨rfl, ?_, ?_, ?_, ?_⟩
  · intro p e h; simp [strategyB, h]
  · intro p u h1 h2; simp [strategyB, h1, h2]
  · intro p h1 h2; simp [strategyB, h1, h2]
  · intro url h; simp [extractWithFallback, h, strategyB]

/-- C6 witness: a page with no `NewsArticle` entry and no social meta
tag yields no identifier, and a patternless URL with an unreachable page
extracts nothing. -/
theorem strategyB_metadata_behavior_witness :
    strategyB (some { ld := [{ typeName := "Organization", url := "https://x.io/" }],
                      socialUrl := none }) = none ∧
    extractWithFallback "https://www.nytimes.com/" none = none := by
  constructor
  · exact strategyB_metadata_behavior.2.2.2.1
      { ld := [{ typeName := "Organization", url := "https://x.io/" }], socialUrl := none }
      rfl rfl
  · exact strategyB_metadata_behavior.2.2.2.2 "https://www.nytimes.com/" rfl

/-! ### Claim C8 -/

/-- C8: the sentiment enricher is idempotent (re-running the assignment
recomputes identical polarity values), order- and field-preserving, and
length-preserving; the polarity function is applied to each comment body
independently of the other fields. -/
theorem enricher_idempotent_order {α : Type} (pol : Json → α) (rows : List Row) :
    enrichAgain pol (enrich pol rows) = enrich pol rows ∧
    (enrich pol rows).map Prod.fst = rows ∧
    (enrich pol rows).length = rows.length := by
  refine ⟨?_, ?_, ?_⟩
  · simp only [enrich, enrichAgain, List.map_map]
    rfl
  · simp only [enrich, List.map_map]
    exact List.map_id rows
  · simp only [enrich, List.length_map]

end NYT
